import Mathlib

/-!
Verification of the URL-resolver repository: a shallow embedding of
`src/url_resolver.py` (`URLResolver.resolve_url`), `src/wayback_archiver.py`
(`WaybackArchiver.archive_url`) and the two batch orchestrators
(`src/app.py` and `src/index.py`), together with theorems settling the
frozen claims about them.

Modelling conventions:
* HTTP traffic is a pure environment: a function from the requested URL to
  the response that arrives.  Transport-level exceptions (timeouts, SSL
  retries, connection errors) are outside the model — every request is
  answered — because no claim is about them; the SSL-retry branches of the
  source re-issue the same request and change no state we track.
* Python `raise` is `Except.error` carrying the exception's message string;
  returning normally is `Except.ok`.
* Python `str` is `String`; `None`-able strings are `Option String`;
  Python truthiness of a string is "non-empty".
* Wall-clock time in the Vercel orchestrator (`src/index.py`) is modelled
  by a cost oracle `cost : Nat → ℚ` giving the time consumed by processing
  item `i` (including its inter-item delay); the float constants 0.5, 8, 9
  of the source are exactly representable and are carried in `ℚ`.
-/

/-! ## Python string primitives

The source manipulates Python `str` values with `strip`, `startswith`,
`split`, `join`, `in` and slicing.  These are embedded as structural
recursions over `List Char` (Lean's own `String.trim`/`startsWith`/
`splitOn` are definitionally opaque to the kernel), matching Python's
character-level semantics. -/

/-- Consume `pat` as a prefix of the second list: `some rest` when it is
one, `none` otherwise.  `startswith` and substring search build on it. -/
def stripPre : List Char → List Char → Option (List Char)
  | [], l => some l
  | _ :: _, [] => none
  | p :: ps, c :: cs => if p = c then stripPre ps cs else none

/-- Python `s.startswith(pre)`. -/
def startsWithS (s pre : String) : Bool :=
  (stripPre pre.data s.data).isSome

/-- The whitespace characters Python's `str.strip()` removes (the ASCII
ones; exotic Unicode spaces are not modelled). -/
def pyIsSpace (c : Char) : Bool :=
  c = ' ' || c = '\t' || c = '\n' || c = '\r' || c = '\x0b' || c = '\x0c'

/-- Python `s.strip()`: drop leading and trailing whitespace. -/
def pyStrip (s : String) : String :=
  String.mk (((s.data.dropWhile pyIsSpace).reverse.dropWhile pyIsSpace).reverse)

/-- Python `s.split(sep)` for a single-character separator (empty segments
kept), as a list of character lists; `acc` holds the current segment
reversed. -/
def splitCharAux (sep : Char) : List Char → List Char → List (List Char)
  | [], acc => [acc.reverse]
  | c :: cs, acc =>
    if c = sep then acc.reverse :: splitCharAux sep cs []
    else splitCharAux sep cs (c :: acc)

/-- Python `s.split(sep)` for a single-character separator. -/
def splitChar (sep : Char) (l : List Char) : List (List Char) :=
  splitCharAux sep l []

/-- Python `sep.join(parts)`. -/
def joinChars (sep : List Char) : List (List Char) → List Char
  | [] => []
  | [x] => x
  | x :: y :: rest => x ++ sep ++ joinChars sep (y :: rest)

/-- Python `sep.join(parts)` on strings. -/
def joinSep (sep : String) (parts : List String) : String :=
  String.mk (joinChars sep.data (parts.map String.data))

/-- The text after the first occurrence of (non-empty) `pat`, or `none`
when `pat` does not occur. -/
def afterFirst (pat : List Char) : List Char → Option (List Char)
  | [] => if pat.isEmpty then some [] else none
  | c :: cs =>
    match stripPre pat (c :: cs) with
    | some rest => some rest
    | none => afterFirst pat cs

/-- The text before the first occurrence of (non-empty) `pat` — the whole
list when `pat` does not occur. -/
def beforeFirst (pat : List Char) : List Char → List Char
  | [] => []
  | c :: cs =>
    match stripPre pat (c :: cs) with
    | some _ => []
    | none => c :: beforeFirst pat cs

/-- Python `pat in s` for a non-empty pattern. -/
def pyInStr (s pat : String) : Bool :=
  (afterFirst pat.data s.data).isSome

/-! ## HTTP model -/

/-- An HTTP response as `resolve_url` observes it: its status code and its
`Location` header (`none` when the header is absent). -/
structure HttpResp where
  status : Nat
  location : Option String
  deriving DecidableEq, Repr

/-- A request issued by the resolver: `session.head` or `session.get`. -/
inductive HttpReq where
  | head (url : String)
  | get (url : String)
  deriving DecidableEq, Repr

/-- The network as the resolver sees it: what a HEAD and what a GET on each
URL return. -/
structure ResolveEnv where
  headResp : String → HttpResp
  getResp : String → HttpResp

/-! ## URL parsing (the slice of `urllib.parse.urlparse` the source uses)

`resolve_url` consults `urlparse` only for `scheme`, `netloc` and `path`,
and only on strings that start with `http://` or `https://` (the input is
normalized to that shape before the first parse, and every later
`current_url` is built with such a prefix).  On that shape `urlparse`
returns: `scheme` the prefix, `netloc` the text up to the first of `/ ? #`,
`path` from there up to the first of `? #`.  (`urlparse`'s `;params` split
is not modelled; no claim touches it.) -/

/-- Split a character list at the first occurrence of one of the delimiter
characters: (text before it, rest starting with the delimiter). -/
def untilDelims (delims : List Char) : List Char → List Char × List Char
  | [] => ([], [])
  | c :: cs =>
    if c ∈ delims then ([], c :: cs)
    else
      let p := untilDelims delims cs
      (c :: p.1, p.2)

/-- The scheme and the text after `scheme://`, for the two prefixes the
source tests for; `none` for any other string. -/
def schemeSplit (url : String) : Option (String × String) :=
  match stripPre "http://".data url.data with
  | some rest => some ("http", String.mk rest)
  | none =>
    match stripPre "https://".data url.data with
    | some rest => some ("https", String.mk rest)
    | none => none

/-- `urlparse(url).scheme` for the URL shapes the resolver feeds it. -/
def schemeOf (url : String) : String :=
  ((schemeSplit url).map Prod.fst).getD ""

/-- `urlparse(url).netloc` for the URL shapes the resolver feeds it. -/
def netlocOf (url : String) : String :=
  match schemeSplit url with
  | none => ""
  | some (_, rest) => String.mk (untilDelims ['/', '?', '#'] rest.data).1

/-- `urlparse(url).path` for the URL shapes the resolver feeds it. -/
def pathOf (url : String) : String :=
  match schemeSplit url with
  | none => ""
  | some (_, rest) =>
    let afterHost := (untilDelims ['/', '?', '#'] rest.data).2
    String.mk (untilDelims ['?', '#'] afterHost).1

/-! ## The resolver (`URLResolver.resolve_url`, src/url_resolver.py) -/

/-- Lines 42-45: strip the input and prepend `https://` unless it already
starts with `http://` or `https://`.  `WaybackArchiver.archive_url`
(src/wayback_archiver.py lines 43-46) performs the identical normalization,
so both components share this definition. -/
def normalizeUrl (url : String) : String :=
  let u := pyStrip url
  if startsWithS u "http://" || startsWithS u "https://" then u
  else "https://" ++ u

/-- The redirect statuses of lines 78 and 116: `[301, 302, 303, 307, 308]`. -/
def redirectStatuses : List Nat := [301, 302, 303, 307, 308]

/-- Lines 83-91: resolution of the `Location` value against `current_url`
in the HEAD branch — `/...` targets get scheme+netloc prepended, targets
without an `http(s)://` prefix get scheme+netloc+trimmed path, absolute
targets pass through. -/
def resolveLocation (currentUrl nextUrl : String) : String :=
  if startsWithS nextUrl "/" then
    schemeOf currentUrl ++ "://" ++ netlocOf currentUrl ++ nextUrl
  else if startsWithS nextUrl "http://" || startsWithS nextUrl "https://" then
    nextUrl
  else
    let basePath :=
      String.mk (joinChars ['/'] (splitChar '/' (pathOf currentUrl).data).dropLast)
    schemeOf currentUrl ++ "://" ++ netlocOf currentUrl ++ basePath ++ "/" ++ nextUrl

/-- Lines 119-122: the GET-fallback branch resolves only `/...` targets;
any other target (absolute or bare relative) is taken verbatim. -/
def resolveLocation405 (currentUrl nextUrl : String) : String :=
  if startsWithS nextUrl "/" then
    schemeOf currentUrl ++ "://" ++ netlocOf currentUrl ++ nextUrl
  else nextUrl

/-- One iteration of the redirect loop (lines 59-145), reduced to its
decision: `some next` when the iteration appends `next` to the chain and
continues with it, `none` when it breaks (or falls to the loop's end).
The branches mirror the source in order:
* a redirect status with a present, non-empty `Location` whose resolved
  target is not yet in the chain continues (lines 78-98);
* 200 stops (line 100);
* 405 issues a GET (lines 104-141): a redirect status with a truthy
  `Location` that is not in the chain — the membership test is on the raw
  header value — continues with the (only `/`-resolved) target, everything
  else stops;
* any other status stops (line 143). -/
def stepTarget (env : ResolveEnv) (chain : List String) (current : String) :
    Option String :=
  let r := env.headResp current
  if r.status ∈ redirectStatuses then
    match r.location with
    | none => none
    | some loc =>
      if loc = "" then none
      else
        let nextUrl := resolveLocation current loc
        if nextUrl ∈ chain then none else some nextUrl
  else if r.status = 200 then none
  else if r.status = 405 then
    let g := env.getResp current
    if g.status ∈ redirectStatuses then
      match g.location with
      | none => none
      | some loc =>
        if loc ≠ "" ∧ loc ∉ chain then some (resolveLocation405 current loc)
        else none
    else none
  else none

/-- The requests one iteration of the loop issues against `current`: always
the HEAD of line 62; additionally the GET of line 107 exactly when the HEAD
answered 405. -/
def stepReqs (env : ResolveEnv) (current : String) : List HttpReq :=
  if (env.headResp current).status = 405 then
    [HttpReq.head current, HttpReq.get current]
  else [HttpReq.head current]

/-- What the redirect walk produces: the final `current_url`, the
`redirect_chain`, and the requests issued (in order). -/
structure ResolveOutcome where
  finalUrl : String
  chain : List String
  reqs : List HttpReq
  deriving DecidableEq, Repr

/-- The redirect loop `for i in range(self.max_redirects)` of lines 59-145:
at most `fuel` iterations, each deciding via `stepTarget` whether to append
a target and continue or to stop with the current URL and chain. -/
def resolveLoop (env : ResolveEnv) : Nat → String → List String → List HttpReq →
    ResolveOutcome
  | 0, current, chain, reqs => ⟨current, chain, reqs⟩
  | fuel + 1, current, chain, reqs =>
    let reqs' := reqs ++ stepReqs env current
    match stepTarget env chain current with
    | none => ⟨current, chain, reqs'⟩
    | some next => resolveLoop env fuel next (chain ++ [next]) reqs'

/-- `URLResolver.resolve_url` (lines 27-147): reject empty input (line 39),
normalize (lines 42-45), reject a normalized URL with an empty `netloc`
(lines 48-53), then walk redirects from a chain seeded with the normalized
URL (lines 55-147) and return `(current_url, redirect_chain)`. -/
def resolveUrl (env : ResolveEnv) (maxRedirects : Nat) (url : String) :
    Except String (String × List String) :=
  if url = "" then .error "Invalid URL provided"
  else
    let u := normalizeUrl url
    if netlocOf u = "" then .error "Invalid URL format"
    else
      let out := resolveLoop env maxRedirects u [u] []
      .ok (out.finalUrl, out.chain)

/-- `v` is a location the walk can reach in one hop from `u`: either the
HEAD on `u` answered a redirect whose non-empty `Location` resolves to `v`
(lines 78-91), or the HEAD answered 405 and the fallback GET answered a
redirect whose non-empty `Location` yields `v` (lines 104-125). -/
def chainStep (env : ResolveEnv) (u v : String) : Prop :=
  ((env.headResp u).status ∈ redirectStatuses ∧
    ∃ loc, (env.headResp u).location = some loc ∧ loc ≠ "" ∧
      v = resolveLocation u loc) ∨
  ((env.headResp u).status = 405 ∧ (env.getResp u).status ∈ redirectStatuses ∧
    ∃ loc, (env.getResp u).location = some loc ∧ loc ≠ "" ∧
      v = resolveLocation405 u loc)

/-! ## The archiver (`WaybackArchiver.archive_url`, src/wayback_archiver.py) -/

/-- `extract_timestamp_from_response` (lines 157-187), which only ever
reads the response's URL: `split` on the `web.archive.org/web/` marker,
take the second part's text up to its first `/`, accepted when it is all
digits and at least 8 long.  (Python's `isdigit` is false on the empty
string; the length bound subsumes that.) -/
def extractTimestampFromUrl (respUrl : String) : Option String :=
  match afterFirst "web.archive.org/web/".data respUrl.data with
  | none => none
  | some afterMarker =>
    let secondPart := beforeFirst "web.archive.org/web/".data afterMarker
    let tsPart := (splitChar '/' secondPart).headD []
    if tsPart.all Char.isDigit ∧ 8 ≤ tsPart.length then some (String.mk tsPart)
    else none

/-- The archive service as `archive_url` sees it, indexed by the (not yet
percent-encoded) normalized target URL: the recent-snapshot lookup
(`check_recent_archive`, whose own failures the source swallows into
`None`), and the save endpoint's status code and resolved response URL. -/
structure ArchiveEnv where
  recentArchive : String → Option String
  saveStatus : String → Nat
  saveRespUrl : String → String

/-- Lines 97-101: an exception escaping the `try` block is re-raised as-is
when its message mentions `Rate limited` or `Access forbidden`, and wrapped
in `Unexpected error during archiving: ...` otherwise. -/
def wrapArchiveError (msg : String) : String :=
  if pyInStr msg "Rate limited" || pyInStr msg "Access forbidden" then msg
  else "Unexpected error during archiving: " ++ msg

/-- `WaybackArchiver.archive_url` (lines 30-101).  Reject empty input (line
40); normalize exactly as the resolver does (lines 43-46, `normalizeUrl` —
note: no `urlparse`/host check follows, unlike the resolver); return a
recent snapshot when one exists (lines 49-52); otherwise classify the save
endpoint's response (lines 57-89): 200 with the snapshot marker in the
response URL returns that URL, 200 without it constructs a reference from
an extracted or current timestamp, 429 raises the rate-limit message, 403
and 404 and other ≥ 400 raise their messages, anything else returns `None`.
`now` stands for `datetime.utcnow().strftime(...)` at line 72. -/
def archiveUrl (env : ArchiveEnv) (now : String) (url : String) :
    Except String (Option String) :=
  if url = "" then .error "Invalid URL provided"
  else
    let u := normalizeUrl url
    let body : Except String (Option String) :=
      match env.recentArchive u with
      | some existing => .ok (some existing)
      | none =>
        let st := env.saveStatus u
        let respUrl := env.saveRespUrl u
        if st = 200 then
          if pyInStr respUrl "web.archive.org/web/" then .ok (some respUrl)
          else
            let ts := (extractTimestampFromUrl respUrl).getD now
            .ok (some ("https://web.archive.org/web/" ++ ts ++ "/" ++ u))
        else if st = 429 then
          .error "Rate limited by Wayback Machine. Please slow down requests."
        else if 400 ≤ st then
          if st = 403 then
            .error "Access forbidden - URL may be blocked from archiving"
          else if st = 404 then
            .error "Wayback Machine service not found"
          else
            .error ("Archiving failed with status code: " ++ toString st)
        else .ok none
    match body with
    | .ok v => .ok v
    | .error e => .error (wrapArchiveError e)

/-! ## Shared retry loop

Both front ends wrap the resolver in `resolve_with_retries` with the same
control flow (src/app.py lines 268-277, src/index.py lines 599-608):
`for attempt in range(max_retries + 1)`, return the first success, re-raise
the failure of attempt `max_retries`.  The operation is modelled as a
function of the attempt number so that a stub that fails on every attempt,
or succeeds on a later one, is expressible; the loop also reports how many
attempts it made. -/

/-- The retry loop from attempt `attempt` with `remaining` retries left
(`remaining = max_retries - attempt` in the source's loop): the result of
the first succeeding attempt, or the last attempt's failure, paired with
the total number of attempts issued so far (`attempt + 1` counts from 0). -/
def retryAux {α : Type} (op : Nat → Except String α) :
    Nat → Nat → Except String α × Nat
  | attempt, remaining =>
    match op attempt with
    | .ok v => (.ok v, attempt + 1)
    | .error e =>
      match remaining with
      | 0 => (.error e, attempt + 1)
      | r + 1 => retryAux op (attempt + 1) r

/-- `resolve_with_retries` / the generic retry shape: run `op` on attempts
`0, 1, ...` up to `maxRetries + 1` attempts, with the count of attempts
actually issued. -/
def retryCall {α : Type} (op : Nat → Except String α) (maxRetries : Nat) :
    Except String α × Nat :=
  retryAux op 0 maxRetries

/-! ## The Streamlit orchestrator (`process_urls`, src/app.py) -/

/-- What `resolve_url` hands back to the orchestrators:
`Tuple[Optional[str], List[str]]`. -/
structure ResolvedPair where
  finalUrl : Option String
  chain : List String
  deriving DecidableEq, Repr

/-- Python truthiness of an `Optional[str]`: present and non-empty. -/
def pyTruthy : Option String → Bool
  | none => false
  | some s => s ≠ ""

/-- One output row: the five columns the orchestrators add to the
spreadsheet (src/app.py lines 138-142, src/index.py lines 470-474),
plus the row's input URL. -/
structure BatchRow where
  inputUrl : String
  resolvedUrl : String
  redirectChain : String
  waybackUrl : String
  status : String
  errorMessage : String
  deriving DecidableEq, Repr

/-- A row as initialized before processing: every added column `''`. -/
def initRow (u : String) : BatchRow :=
  ⟨u, "", "", "", "", ""⟩

/-- `archive_with_retries` of src/app.py (lines 279-288): return the
archiver's value of the first non-raising attempt (even `None`), `None`
when attempt `max_retries` raises. -/
def appArchiveRetryAux (archiver : Nat → Except String (Option String)) :
    Nat → Nat → Option String
  | attempt, remaining =>
    match archiver attempt with
    | .ok v => v
    | .error _ =>
      match remaining with
      | 0 => none
      | r + 1 => appArchiveRetryAux archiver (attempt + 1) r

/-- `archive_with_retries` of src/app.py, from attempt 0. -/
def appArchiveWithRetries (archiver : Nat → Except String (Option String))
    (maxRetries : Nat) : Option String :=
  appArchiveRetryAux archiver 0 maxRetries

/-- The per-item body of `process_urls` in src/app.py (lines 175-208),
paired with the number of resolution attempts the item consumed:
* resolution raising on its final attempt records status `Error` with the
  exception's message (lines 205-207);
* a falsy final URL records `Failed` / `Unable to resolve URL`
  (lines 200-202);
* otherwise the row records the resolved URL, the chain joined with
  `" -> "`, the archive result or the `Failed to archive` placeholder, and
  status `Success` (lines 186-199). -/
def appProcessItem (resolver : Nat → Except String ResolvedPair)
    (archiver : Nat → Except String (Option String)) (maxRetries : Nat)
    (origUrl : String) : BatchRow × Nat :=
  match retryCall resolver maxRetries with
  | (.ok rp, n) =>
    (if pyTruthy rp.finalUrl then
      let way := appArchiveWithRetries archiver maxRetries
      { inputUrl := origUrl
        resolvedUrl := rp.finalUrl.getD ""
        redirectChain := joinSep " -> " rp.chain
        waybackUrl := if pyTruthy way then way.getD "" else "Failed to archive"
        status := "Success"
        errorMessage := "" }
    else
      { initRow origUrl with status := "Failed"
                             errorMessage := "Unable to resolve URL" }, n)
  | (.error e, n) =>
    ({ initRow origUrl with status := "Error", errorMessage := e }, n)

/-- `process_urls` of src/app.py over the filtered non-empty URLs: each row
is processed independently in input order (the loop touches only the
current row).  `resolver i` and `archiver i` are item `i`'s attempt-indexed
oracles. -/
def appProcessUrls (resolver : Nat → Nat → Except String ResolvedPair)
    (archiver : Nat → Nat → Except String (Option String)) (maxRetries : Nat)
    (urls : List String) : List (BatchRow × Nat) :=
  urls.enum.map fun p => appProcessItem (resolver p.1) (archiver p.1) maxRetries p.2

/-! ## The Vercel orchestrator (`process_urls`, src/index.py) -/

/-- `archive_with_retries` of src/index.py (lines 610-624): return the
archiver's string when it is truthy and does not start with `Failed`,
`Error` or `Timeout`; at attempt `max_retries` return the result or the
`Failed to archive after retries` placeholder, or on an exception the
truncated `Archive error: ...` message; otherwise retry.  (The
`return 'Failed to archive'` after the loop is unreachable: the last
attempt always returns.)  The result is always a string — this wrapper
never raises. -/
def idxArchiveRetryAux (archiver : Nat → Except String (Option String)) :
    Nat → Nat → String
  | attempt, remaining =>
    match archiver attempt with
    | .ok result =>
      match result with
      | some r =>
        if r ≠ "" ∧ (startsWithS r "Failed" || startsWithS r "Error" ||
            startsWithS r "Timeout") = false then r
        else
          match remaining with
          | 0 => if r = "" then "Failed to archive after retries" else r
          | rem + 1 => idxArchiveRetryAux archiver (attempt + 1) rem
      | none =>
        match remaining with
        | 0 => "Failed to archive after retries"
        | rem + 1 => idxArchiveRetryAux archiver (attempt + 1) rem
    | .error e =>
      match remaining with
      | 0 => "Archive error: " ++ e.take 30 ++ "..."
      | rem + 1 => idxArchiveRetryAux archiver (attempt + 1) rem

/-- `archive_with_retries` of src/index.py, from attempt 0. -/
def idxArchiveWithRetries (archiver : Nat → Except String (Option String))
    (maxRetries : Nat) : String :=
  idxArchiveRetryAux archiver 0 maxRetries

/-- The per-item body of `process_urls` in src/index.py (lines 514-540);
it differs from the Streamlit variant in that the chain join falls back to
the original URL on an empty chain (line 526) and the archive column takes
`archive_with_retries`' string (or the placeholder when that string is
empty, line 527). -/
def idxProcessItem (resolver : Nat → Except String ResolvedPair)
    (archiver : Nat → Except String (Option String)) (maxRetries : Nat)
    (origUrl : String) : BatchRow :=
  match (retryCall resolver maxRetries).1 with
  | .ok rp =>
    if pyTruthy rp.finalUrl then
      let way := idxArchiveWithRetries archiver maxRetries
      { inputUrl := origUrl
        resolvedUrl := rp.finalUrl.getD ""
        redirectChain :=
          if rp.chain ≠ [] then joinSep " -> " rp.chain else origUrl
        waybackUrl := if way ≠ "" then way else "Failed to archive"
        status := "Success"
        errorMessage := "" }
    else
      { initRow origUrl with status := "Failed"
                             errorMessage := "Unable to resolve URL" }
  | .error e =>
    { initRow origUrl with status := "Error", errorMessage := e }

/-- Line 490: `estimated_time_per_url = 0.5` (seconds). -/
def estimatedTimePerUrl : ℚ := 1 / 2

/-- A row marked by the deadline pass (lines 508-509): status `Skipped`
with the explanatory message, every other added column untouched. -/
def skipRow (u : String) : BatchRow :=
  { initRow u with
      status := "Skipped"
      errorMessage := "Skipped to avoid timeout - process in smaller batches" }

/-- The processing loop of src/index.py (lines 498-551) over the remaining
URLs, carrying the item position `i` (`processed_count` at the top of the
iteration) and the elapsed wall time.  At each iteration: when
`elapsed + (total - processed) * 0.5 > 9` every remaining row is marked
`Skipped` in one pass and the counter advanced past all of them (lines
504-512); otherwise the item — stripped first, line 514 — is processed and
the loop continues with `cost i` more time elapsed.  Returns the rows the
loop gave a status, and the final `processed_count`. -/
def idxLoop (resolver : Nat → Nat → Except String ResolvedPair)
    (archiver : Nat → Nat → Except String (Option String))
    (cost : Nat → ℚ) (maxRetries total : Nat) :
    List String → Nat → ℚ → List BatchRow × Nat
  | [], i, _ => ([], i)
  | u :: rest, i, elapsed =>
    if elapsed + ((total : ℚ) - (i : ℚ)) * estimatedTimePerUrl > 9 then
      ((u :: rest).map skipRow, i + (u :: rest).length)
    else
      let row := idxProcessItem (resolver i) (archiver i) maxRetries (pyStrip u)
      let out := idxLoop resolver archiver cost maxRetries total rest (i + 1)
        (elapsed + cost i)
      (row :: out.1, out.2)

/-- Line 491: `max_safe_urls = min(max_urls, int(8 / estimated_time_per_url))`
(`int(...)` truncates; the quotient is positive, so it is the floor). -/
def maxSafeUrls (maxUrls : Nat) : Nat :=
  min maxUrls (Int.floor ((8 : ℚ) / estimatedTimePerUrl)).toNat

/-- `process_urls` of src/index.py from the filtered non-empty URLs on:
limit to `max_urls` (line 477), truncate again to `max_safe_urls` (lines
491-496), run the deadline-checked loop from `processed_count = 0` and
elapsed time 0, and leave every row beyond the truncation as initialized
(no status, no message).  Returns (all rows in order, the reported
`total_urls`, the final `processed_count`). -/
def idxProcessUrls (resolver : Nat → Nat → Except String ResolvedPair)
    (archiver : Nat → Nat → Except String (Option String))
    (cost : Nat → ℚ) (maxRetries maxUrls : Nat) (urls : List String) :
    List BatchRow × Nat × Nat :=
  let urlsToProcess := (urls.take maxUrls).take (maxSafeUrls maxUrls)
  let total := urlsToProcess.length
  let out := idxLoop resolver archiver cost maxRetries total urlsToProcess 0 0
  (out.1 ++ (urls.drop urlsToProcess.length).map initRow, total, out.2)

/-- The elapsed-time prefix sums of the cost oracle: the wall time consumed
by items `i, i+1, ..., i+k-1`. -/
def costSum (cost : Nat → ℚ) : Nat → Nat → ℚ
  | _, 0 => 0
  | i, k + 1 => cost i + costSum cost (i + 1) k

/-! ## Concrete environments used to instantiate the theorems -/

/-- A host whose `https://a.example/x` rejects HEAD with 405 and answers
the fallback GET with a redirect to `https://b.example/`, which in turn
answers 200. -/
def envHead405 : ResolveEnv :=
  { headResp := fun s => if s = "https://a.example/x" then ⟨405, none⟩ else ⟨200, none⟩
    getResp := fun s =>
      if s = "https://a.example/x" then ⟨302, some "https://b.example/"⟩
      else ⟨200, none⟩ }

/-- A two-URL redirect cycle: `https://a.example/` and `https://b.example/`
each 301-redirect to the other. -/
def envCycle : ResolveEnv :=
  { headResp := fun s =>
      if s = "https://a.example/" then ⟨301, some "https://b.example/"⟩
      else if s = "https://b.example/" then ⟨301, some "https://a.example/"⟩
      else ⟨200, none⟩
    getResp := fun _ => ⟨200, none⟩ }

/-- A host that redirects every URL to a URL never seen before (one more
`a` appended each hop). -/
def envFresh : ResolveEnv :=
  { headResp := fun s => ⟨301, some (s ++ "a")⟩, getResp := fun _ => ⟨200, none⟩ }

/-- The fresh URLs `envFresh` walks through from `https://h/`. -/
def freshUrl (i : Nat) : String :=
  "https://h/" ++ String.mk (List.replicate i 'a')

/-- An archive service with no recent snapshot whose save endpoint always
answers 429. -/
def envSave429 : ArchiveEnv :=
  { recentArchive := fun _ => none, saveStatus := fun _ => 429, saveRespUrl := fun _ => "" }

/-- An archive service that reports a recent snapshot for every URL. -/
def envRecentHit : ArchiveEnv :=
  { recentArchive := fun _ => some "https://web.archive.org/web/1/x"
    saveStatus := fun _ => 200, saveRespUrl := fun _ => "" }

/-- A three-item resolver stub: items 0 and 2 resolve at once, item 1
raises `boom` on every attempt. -/
def stubResolver3 : Nat → Nat → Except String ResolvedPair := fun i _ =>
  if i = 1 then .error "boom"
  else .ok ⟨some "https://final.example/", ["https://final.example/"]⟩

/-- An archiver stub that succeeds immediately on every item. -/
def stubArchiverOk : Nat → Nat → Except String (Option String) := fun _ _ =>
  .ok (some "https://web.archive.org/web/1/f")

/-- A single-item resolver stub that resolves on its first attempt. -/
def stubResolveOk : Nat → Except String ResolvedPair := fun _ =>
  .ok ⟨some "https://final.example/", ["https://final.example/"]⟩

/-- A single-item archiver stub that raises `down` on every attempt. -/
def stubArchiverDown : Nat → Except String (Option String) := fun _ =>
  .error "down"

/-! # Theorems

First general lemmas about the embedded operations, then one theorem (with
its counterexample and witness where called for) per claim. -/

/-! ## Lemmas about the redirect walk -/

/-- Unfolding: with fuel left and a stopping step, the walk returns the
current state (having issued this iteration's requests). -/
theorem resolveLoop_stop (env : ResolveEnv) (fuel : Nat) (current : String)
    (chain : List String) (reqs : List HttpReq)
    (h : stepTarget env chain current = none) :
    resolveLoop env (fuel + 1) current chain reqs =
      ⟨current, chain, reqs ++ stepReqs env current⟩ := by
  simp only [resolveLoop, h]

/-- Unfolding: with fuel left and a continuing step, the walk appends the
target and recurses. -/
theorem resolveLoop_continue (env : ResolveEnv) (fuel : Nat) (current : String)
    (chain : List String) (reqs : List HttpReq) (v : String)
    (h : stepTarget env chain current = some v) :
    resolveLoop env (fuel + 1) current chain reqs =
      resolveLoop env fuel v (chain ++ [v]) (reqs ++ stepReqs env current) := by
  simp only [resolveLoop, h]

/-- A redirect-status HEAD answer with a present, non-empty `Location`
makes the step continue with the resolved target unless that target is
already in the chain. -/
theorem stepTarget_redirect (env : ResolveEnv) (chain : List String)
    (current loc : String)
    (hst : (env.headResp current).status ∈ redirectStatuses)
    (hloc : (env.headResp current).location = some loc)
    (hne : loc ≠ "") :
    stepTarget env chain current =
      if resolveLocation current loc ∈ chain then none
      else some (resolveLocation current loc) := by
  simp only [stepTarget, if_pos hst, hloc, if_neg hne]

/-- A 405 HEAD answer with a redirect-status GET answer carrying a fresh,
non-empty `Location` makes the step continue with the GET-resolved target. -/
theorem stepTarget_405_continue (env : ResolveEnv) (chain : List String)
    (current loc : String)
    (h405 : (env.headResp current).status = 405)
    (hgr : (env.getResp current).status ∈ redirectStatuses)
    (hloc : (env.getResp current).location = some loc)
    (hne : loc ≠ "") (hfresh : loc ∉ chain) :
    stepTarget env chain current = some (resolveLocation405 current loc) := by
  have hnr : (env.headResp current).status ∉ redirectStatuses := by
    rw [h405]; decide
  have h200 : ¬(env.headResp current).status = 200 := by rw [h405]; decide
  simp only [stepTarget, if_neg hnr, if_neg h200, if_pos h405, if_pos hgr, hloc,
    if_pos (And.intro hne hfresh)]

/-- An absolute `Location` (no leading slash, an `http(s)://` prefix)
resolves to itself in the HEAD branch. -/
theorem resolveLocation_abs (currentUrl loc : String)
    (h1 : startsWithS loc "/" = false)
    (h2 : (startsWithS loc "http://" || startsWithS loc "https://") = true) :
    resolveLocation currentUrl loc = loc := by
  simp only [resolveLocation, h1, h2, Bool.false_eq_true, if_false, if_true]

/-- A URL that is already stripped and carries an `http(s)://` prefix is
its own normalization. -/
theorem normalizeUrl_id (u : String) (h1 : pyStrip u = u)
    (h2 : (startsWithS u "http://" || startsWithS u "https://") = true) :
    normalizeUrl u = u := by
  simp only [normalizeUrl, h1, h2, if_true]

/-- C4: a two-URL redirect cycle `A → B → A` (both absolute URLs,
`A` already normalized with a non-empty host, at least two hops of budget)
terminates as soon as `A` is re-encountered: the result is
`finalUrl = B` and `chain = [A, B]`, with no error. -/
theorem resolve_cycle_terminates (env : ResolveEnv) (A B : String) (n : Nat)
    (hn : 2 ≤ n)
    (hA0 : A ≠ "") (hAstrip : pyStrip A = A)
    (hAabs : (startsWithS A "http://" || startsWithS A "https://") = true)
    (hAslash : startsWithS A "/" = false)
    (hAnet : netlocOf A ≠ "")
    (hBslash : startsWithS B "/" = false)
    (hBabs : (startsWithS B "http://" || startsWithS B "https://") = true)
    (hBne : B ≠ "") (hABne : A ≠ B)
    (hrA : (env.headResp A).status ∈ redirectStatuses)
    (hlA : (env.headResp A).location = some B)
    (hrB : (env.headResp B).status ∈ redirectStatuses)
    (hlB : (env.headResp B).location = some A) :
    resolveUrl env n A = .ok (B, [A, B]) := by
  obtain ⟨m, rfl⟩ : ∃ m, n = m + 2 := ⟨n - 2, by omega⟩
  have hresB : resolveLocation A B = B := resolveLocation_abs A B hBslash hBabs
  have hresA : resolveLocation B A = A := resolveLocation_abs B A hAslash hAabs
  have hstep1 : stepTarget env [A] A = some B := by
    rw [stepTarget_redirect env [A] A B hrA hlA hBne, hresB,
      if_neg (by simp [hABne.symm])]
  have hstep2 : stepTarget env [A, B] B = none := by
    rw [stepTarget_redirect env [A, B] B A hrB hlB hA0, hresA,
      if_pos (by simp)]
  have hloop : resolveLoop env (m + 2) A [A] [] =
      ⟨B, [A, B], [] ++ stepReqs env A ++ stepReqs env B⟩ := by
    rw [resolveLoop_continue env (m + 1) A [A] [] B hstep1]
    rw [show [A] ++ [B] = [A, B] from rfl,
      resolveLoop_stop env m B [A, B] ([] ++ stepReqs env A) hstep2]
  simp only [resolveUrl, if_neg hA0, normalizeUrl_id A hAstrip hAabs,
    if_neg hAnet, hloop]

/-- The walk along a family of pairwise-distinct absolute URLs
`u 0, u 1, ...` where each `u i` (for `i < 20`) redirects to `u (i+1)`:
starting at `u i` with the chain already holding `u 0 .. u i` and `f`
hops of fuel left (`i + f ≤ 20`), the walk uses all its fuel and ends at
`u (i + f)` with the chain `u 0 .. u (i+f)`. -/
theorem resolveLoop_linear (env : ResolveEnv) (u : Nat → String)
    (habs : ∀ i ∈ List.range 21, startsWithS (u i) "/" = false ∧
      (startsWithS (u i) "http://" || startsWithS (u i) "https://") = true ∧
      u i ≠ "")
    (hinj : ∀ i ∈ List.range 21, ∀ j ∈ List.range 21, u i = u j → i = j)
    (hred : ∀ i ∈ List.range 20, (env.headResp (u i)).status ∈ redirectStatuses ∧
      (env.headResp (u i)).location = some (u (i + 1))) :
    ∀ (f i : Nat) (reqs : List HttpReq), i + f ≤ 20 →
      (resolveLoop env f (u i) ((List.range (i + 1)).map u) reqs).finalUrl =
        u (i + f) ∧
      (resolveLoop env f (u i) ((List.range (i + 1)).map u) reqs).chain =
        (List.range (i + f + 1)).map u := by
  intro f
  induction f with
  | zero => intro i reqs _; exact ⟨rfl, rfl⟩
  | succ f ih =>
    intro i reqs hle
    have hi20 : i ∈ List.range 20 := List.mem_range.mpr (by omega)
    have hi1 : i + 1 ∈ List.range 21 := List.mem_range.mpr (by omega)
    obtain ⟨hslash, habs1, hne⟩ := habs (i + 1) hi1
    obtain ⟨hrs, hloc⟩ := hred i hi20
    have hres : resolveLocation (u i) (u (i + 1)) = u (i + 1) :=
      resolveLocation_abs (u i) (u (i + 1)) hslash habs1
    have hfresh : u (i + 1) ∉ (List.range (i + 1)).map u := by
      intro hmem
      obtain ⟨j, hj, hju⟩ := List.mem_map.mp hmem
      have hj21 : j ∈ List.range 21 :=
        List.mem_range.mpr (by have := List.mem_range.mp hj; omega)
      have := hinj j hj21 (i + 1) hi1 hju
      have := List.mem_range.mp hj
      omega
    have hstep : stepTarget env ((List.range (i + 1)).map u) (u i) =
        some (u (i + 1)) := by
      rw [stepTarget_redirect env _ (u i) (u (i + 1)) hrs hloc hne, hres,
        if_neg hfresh]
    rw [resolveLoop_continue env f (u i) _ reqs (u (i + 1)) hstep]
    have hchain : (List.range (i + 1)).map u ++ [u (i + 1)] =
        (List.range (i + 1 + 1)).map u := by
      rw [List.range_succ (n := i + 1), List.map_append]; rfl
    rw [hchain]
    have := ih (i + 1) (reqs ++ stepReqs env (u i)) (by omega)
    have harith : i + 1 + f = i + (f + 1) := by omega
    rw [harith] at this
    exact this

/-- C5: with a hop budget of 20 and a host that redirects every request to
a URL never seen before, resolution uses exactly the 20 hops and ends, with
no error, at the 20th redirect target, the chain being all 21 URLs. -/
theorem resolve_exhausts_hop_budget (env : ResolveEnv) (u : Nat → String)
    (habs : ∀ i ∈ List.range 21, startsWithS (u i) "/" = false ∧
      (startsWithS (u i) "http://" || startsWithS (u i) "https://") = true ∧
      u i ≠ "")
    (hinj : ∀ i ∈ List.range 21, ∀ j ∈ List.range 21, u i = u j → i = j)
    (hred : ∀ i ∈ List.range 20, (env.headResp (u i)).status ∈ redirectStatuses ∧
      (env.headResp (u i)).location = some (u (i + 1)))
    (hstrip : pyStrip (u 0) = u 0) (hnet : netlocOf (u 0) ≠ "") :
    resolveUrl env 20 (u 0) = .ok (u 20, (List.range 21).map u) := by
  obtain ⟨-, habs0, hne0⟩ := habs 0 (List.mem_range.mpr (by omega))
  have h := resolveLoop_linear env u habs hinj hred 20 0 [] (by omega)
  have hseed : [u 0] = (List.range (0 + 1)).map u := by
    simp [List.range_succ]
  simp only [resolveUrl, if_neg hne0, normalizeUrl_id (u 0) hstrip habs0,
    if_neg hnet, hseed]
  rw [h.1, h.2]

/-- A continuing step only ever continues to a redirect target: `stepTarget`
answering `some v` means `v` came from a redirect response's `Location`
(directly or through the 405 GET fallback). -/
theorem stepTarget_chainStep (env : ResolveEnv) (chain : List String)
    (current v : String) (h : stepTarget env chain current = some v) :
    chainStep env current v := by
  simp only [stepTarget] at h
  by_cases h1 : (env.headResp current).status ∈ redirectStatuses
  · rw [if_pos h1] at h
    cases hloc : (env.headResp current).location with
    | none => rw [hloc] at h; exact absurd h (by simp)
    | some loc =>
      simp only [hloc] at h
      by_cases h2 : loc = ""
      · rw [if_pos h2] at h; exact absurd h (by simp)
      · rw [if_neg h2] at h
        by_cases h3 : resolveLocation current loc ∈ chain
        · rw [if_pos h3] at h; exact absurd h (by simp)
        · rw [if_neg h3] at h
          exact Or.inl ⟨h1, loc, hloc, h2, (Option.some.injEq _ _ ▸ h).symm⟩
  · rw [if_neg h1] at h
    by_cases h200 : (env.headResp current).status = 200
    · rw [if_pos h200] at h; exact absurd h (by simp)
    · rw [if_neg h200] at h
      by_cases h405 : (env.headResp current).status = 405
      · rw [if_pos h405] at h
        by_cases h4 : (env.getResp current).status ∈ redirectStatuses
        · rw [if_pos h4] at h
          cases hloc : (env.getResp current).location with
          | none => rw [hloc] at h; exact absurd h (by simp)
          | some loc =>
            simp only [hloc] at h
            by_cases h5 : loc ≠ "" ∧ loc ∉ chain
            · rw [if_pos h5] at h
              exact Or.inr ⟨h405, h4, loc, hloc, h5.1,
                (Option.some.injEq _ _ ▸ h).symm⟩
            · rw [if_neg h5] at h; exact absurd h (by simp)
        · rw [if_neg h4] at h; exact absurd h (by simp)
      · rw [if_neg h405] at h; exact absurd h (by simp)

/-- The chain invariant of the redirect walk: starting from a non-empty
chain that ends at the current URL and whose adjacent entries are redirect
hops, the walk preserves all of it — the final chain is non-empty, keeps
the starting head, ends at the returned final URL, and its adjacent
entries are redirect hops. -/
theorem resolveLoop_inv (env : ResolveEnv) :
    ∀ (fuel : Nat) (current : String) (chain : List String) (reqs : List HttpReq),
      chain ≠ [] → chain.getLast? = some current →
      List.Chain' (chainStep env) chain →
      (resolveLoop env fuel current chain reqs).chain ≠ [] ∧
      (resolveLoop env fuel current chain reqs).chain.head? = chain.head? ∧
      (resolveLoop env fuel current chain reqs).chain.getLast? =
        some (resolveLoop env fuel current chain reqs).finalUrl ∧
      List.Chain' (chainStep env) (resolveLoop env fuel current chain reqs).chain := by
  intro fuel
  induction fuel with
  | zero => intro current chain reqs hne hlast hchain; exact ⟨hne, rfl, hlast, hchain⟩
  | succ fuel ih =>
    intro current chain reqs hne hlast hchain
    cases hstep : stepTarget env chain current with
    | none =>
      rw [resolveLoop_stop env fuel current chain reqs hstep]
      exact ⟨hne, rfl, hlast, hchain⟩
    | some v =>
      rw [resolveLoop_continue env fuel current chain reqs v hstep]
      have hne' : chain ++ [v] ≠ [] := by simp
      have hlast' : (chain ++ [v]).getLast? = some v := by
        rw [List.getLast?_append]; rfl
      have hchain' : List.Chain' (chainStep env) (chain ++ [v]) := by
        rw [List.chain'_append]
        refine ⟨hchain, List.chain'_singleton v, ?_⟩
        intro x hx y hy
        rw [hlast] at hx
        cases hx
        cases hy
        exact stepTarget_chainStep env chain current v hstep
      have := ih v (chain ++ [v]) (reqs ++ stepReqs env current) hne' hlast' hchain'
      refine ⟨this.1, ?_, this.2.2⟩
      rw [this.2.1]
      cases chain with
      | nil => exact absurd rfl hne
      | cons a t => rfl

/-- Requests only accumulate: everything already issued is in the walk's
final request list. -/
theorem resolveLoop_reqs_mono (env : ResolveEnv) :
    ∀ (fuel : Nat) (current : String) (chain : List String)
      (reqs : List HttpReq) (r : HttpReq), r ∈ reqs →
      r ∈ (resolveLoop env fuel current chain reqs).reqs := by
  intro fuel
  induction fuel with
  | zero => intro current chain reqs r hr; exact hr
  | succ fuel ih =>
    intro current chain reqs r hr
    cases hstep : stepTarget env chain current with
    | none =>
      rw [resolveLoop_stop env fuel current chain reqs hstep]
      exact List.mem_append_left _ hr
    | some v =>
      rw [resolveLoop_continue env fuel current chain reqs v hstep]
      exact ih v (chain ++ [v]) (reqs ++ stepReqs env current) r
        (List.mem_append_left _ hr)

/-- The HEAD of the current URL is always among an iteration's requests. -/
theorem head_mem_stepReqs (env : ResolveEnv) (c : String) :
    HttpReq.head c ∈ stepReqs env c := by
  unfold stepReqs
  split <;> simp

/-- C1 counterexample: at `envHead405` (HEAD on `https://a.example/x`
answers 405, its fallback GET answers 302 to the fresh
`https://b.example/`), the walk does NOT stop after classifying the GET:
a further HEAD — on the GET's redirect target — is issued, so the request
trace is `[HEAD a, GET a, HEAD b]`, not `[HEAD a, GET a]`. -/
theorem resolve_405_stops_counterexample :
    (resolveLoop envHead405 20 "https://a.example/x"
        ["https://a.example/x"] []).reqs =
      [HttpReq.head "https://a.example/x", HttpReq.get "https://a.example/x",
        HttpReq.head "https://b.example/"] ∧
    resolveUrl envHead405 20 "https://a.example/x" =
      .ok ("https://b.example/", ["https://a.example/x", "https://b.example/"]) :=
  ⟨by decide, rfl⟩

/-- C1 amended: on a 405 HEAD answer the walk falls back to a single GET
with redirects disabled and classifies it once; when that GET is a
redirect whose raw `Location` is truthy and not already in the chain, the
(only `/`-resolved) target is appended and the walk CONTINUES — with fuel
remaining, a further HEAD is issued on that target — rather than stopping
regardless of outcome; the walk stops after the GET only when the GET
answer is not such a fresh redirect. -/
theorem resolve_405_get_continues (env : ResolveEnv) (fuel : Nat)
    (u : String) (chain : List String) (reqs : List HttpReq) (loc : String)
    (h405 : (env.headResp u).status = 405)
    (hgr : (env.getResp u).status ∈ redirectStatuses)
    (hloc : (env.getResp u).location = some loc)
    (hne : loc ≠ "") (hfresh : loc ∉ chain) :
    resolveLoop env (fuel + 2) u chain reqs =
      resolveLoop env (fuel + 1) (resolveLocation405 u loc)
        (chain ++ [resolveLocation405 u loc])
        (reqs ++ [HttpReq.head u, HttpReq.get u]) ∧
    HttpReq.head (resolveLocation405 u loc) ∈
      (resolveLoop env (fuel + 2) u chain reqs).reqs := by
  have hstep : stepTarget env chain u = some (resolveLocation405 u loc) :=
    stepTarget_405_continue env chain u loc h405 hgr hloc hne hfresh
  have hreqs : stepReqs env u = [HttpReq.head u, HttpReq.get u] := by
    unfold stepReqs; rw [if_pos h405]
  have hunfold : resolveLoop env (fuel + 2) u chain reqs =
      resolveLoop env (fuel + 1) (resolveLocation405 u loc)
        (chain ++ [resolveLocation405 u loc])
        (reqs ++ [HttpReq.head u, HttpReq.get u]) := by
    rw [resolveLoop_continue env (fuel + 1) u chain reqs _ hstep, hreqs]
  refine ⟨hunfold, ?_⟩
  rw [hunfold]
  set v := resolveLocation405 u loc
  set chain' := chain ++ [v]
  set reqs' := reqs ++ [HttpReq.head u, HttpReq.get u]
  have hmem : HttpReq.head v ∈ reqs' ++ stepReqs env v :=
    List.mem_append_right _ (head_mem_stepReqs env v)
  cases hstep2 : stepTarget env chain' v with
  | none => rw [resolveLoop_stop env fuel v chain' reqs' hstep2]; exact hmem
  | some w =>
    rw [resolveLoop_continue env fuel v chain' reqs' w hstep2]
    exact resolveLoop_reqs_mono env fuel w (chain' ++ [w])
      (reqs' ++ stepReqs env v) _ hmem

/-- C1 witness: the amended theorem at `envHead405` — the walk continues
past the GET hop and HEAD-requests the GET's redirect target. -/
theorem resolve_405_get_continues_witness :
    (resolveLoop envHead405 (18 + 2) "https://a.example/x"
        ["https://a.example/x"] [] =
      resolveLoop envHead405 (18 + 1)
        (resolveLocation405 "https://a.example/x" "https://b.example/")
        (["https://a.example/x"] ++
          [resolveLocation405 "https://a.example/x" "https://b.example/"])
        ([] ++ [HttpReq.head "https://a.example/x",
          HttpReq.get "https://a.example/x"])) ∧
    HttpReq.head (resolveLocation405 "https://a.example/x" "https://b.example/") ∈
      (resolveLoop envHead405 (18 + 2) "https://a.example/x"
        ["https://a.example/x"] []).reqs :=
  resolve_405_get_continues envHead405 18 "https://a.example/x"
    ["https://a.example/x"] [] "https://b.example/" (by decide) (by decide)
    rfl (by decide) (by decide)

/-! ## Lemmas about the archiver and the retry wrappers -/

/-- The Vercel `archive_with_retries` on an operation that raises the same
message on every attempt returns the truncated `Archive error: ...` string
(and in particular returns rather than raising). -/
theorem idxArchiveRetryAux_const_error
    (archiver : Nat → Except String (Option String)) (e : String)
    (h : ∀ n, archiver n = .error e) :
    ∀ (remaining attempt : Nat),
      idxArchiveRetryAux archiver attempt remaining =
        "Archive error: " ++ e.take 30 ++ "..." := by
  intro remaining
  induction remaining with
  | zero => intro attempt; simp only [idxArchiveRetryAux, h attempt]
  | succ r ih => intro attempt; simp only [idxArchiveRetryAux, h attempt]; exact ih _

/-- The Streamlit `archive_with_retries` on an operation that raises on
every attempt returns `None`. -/
theorem appArchiveRetryAux_const_error
    (archiver : Nat → Except String (Option String)) (e : String)
    (h : ∀ n, archiver n = .error e) :
    ∀ (remaining attempt : Nat),
      appArchiveRetryAux archiver attempt remaining = none := by
  intro remaining
  induction remaining with
  | zero => intro attempt; simp only [appArchiveRetryAux, h attempt]
  | succ r ih => intro attempt; simp only [appArchiveRetryAux, h attempt]; exact ih _

/-- The shared retry loop on an operation that raises the same message on
every attempt: the loop re-raises it after `attempt + remaining + 1` total
attempts. -/
theorem retryAux_const_error {α : Type} (op : Nat → Except String α)
    (e : String) (h : ∀ n, op n = .error e) :
    ∀ (remaining attempt : Nat),
      retryAux op attempt remaining = (.error e, attempt + remaining + 1) := by
  intro remaining
  induction remaining with
  | zero => intro attempt; simp only [retryAux, h attempt]
  | succ r ih =>
    intro attempt
    simp only [retryAux, h attempt, ih (attempt + 1)]
    exact congrArg _ (by omega)

/-- `retryCall` on an always-raising operation: the failure surfaces after
exactly `maxRetries + 1` attempts. -/
theorem retryCall_const_error {α : Type} (op : Nat → Except String α)
    (e : String) (maxRetries : Nat) (h : ∀ n, op n = .error e) :
    retryCall op maxRetries = (.error e, maxRetries + 1) := by
  rw [retryCall, retryAux_const_error op e h maxRetries 0]
  exact congrArg _ (by omega)

/-- `retryCall` on an operation that succeeds at its first attempt: one
attempt, that result. -/
theorem retryCall_ok0 {α : Type} (op : Nat → Except String α) (v : α)
    (maxRetries : Nat) (h : op 0 = .ok v) :
    retryCall op maxRetries = (.ok v, 1) := by
  cases maxRetries <;> simp only [retryCall, retryAux, h]

/-- C2 counterexample: with no recent snapshot and a save endpoint
answering 429, `archive_url` raises (the rate-limit exception message) —
it does not return a `RateLimited` result value to its caller. -/
theorem archive_429_returns_counterexample :
    archiveUrl envSave429 "20250101000000" "https://x.example/" =
      .error "Rate limited by Wayback Machine. Please slow down requests." :=
  rfl

set_option maxRecDepth 8000 in
/-- C2 amended: `archive_url` raises its rate-limit exception on HTTP 429;
it is the Vercel orchestrator's `archive_with_retries` that catches the
exception on the final attempt and converts it to the string-valued
`Archive error: ...` result, so batch processing continues past the
rate-limited item. -/
theorem archive_429_raises_orchestrator_continues (env : ArchiveEnv)
    (now url : String) (maxRetries : Nat)
    (h0 : url ≠ "")
    (hrec : env.recentArchive (normalizeUrl url) = none)
    (hst : env.saveStatus (normalizeUrl url) = 429) :
    archiveUrl env now url =
      .error "Rate limited by Wayback Machine. Please slow down requests." ∧
    idxArchiveWithRetries (fun _ => archiveUrl env now url) maxRetries =
      "Archive error: Rate limited by Wayback Machin..." := by
  have h1 : archiveUrl env now url =
      .error "Rate limited by Wayback Machine. Please slow down requests." := by
    simp only [archiveUrl, if_neg h0, hrec, hst]
    rfl
  refine ⟨h1, ?_⟩
  rw [idxArchiveWithRetries,
    idxArchiveRetryAux_const_error _ _ (fun _ => h1) maxRetries 0]
  rfl

/-- C2 witness: the amended theorem at `envSave429` with one retry. -/
theorem archive_429_raises_orchestrator_continues_witness :
    archiveUrl envSave429 "20250101000000" "https://x.example/" =
      .error "Rate limited by Wayback Machine. Please slow down requests." ∧
    idxArchiveWithRetries
        (fun _ => archiveUrl envSave429 "20250101000000" "https://x.example/") 1 =
      "Archive error: Rate limited by Wayback Machin..." :=
  archive_429_raises_orchestrator_continues envSave429 "20250101000000"
    "https://x.example/" 1 (by decide) rfl rfl

/-- C6 counterexample: on the input `https://` — whose normalized form has
an empty host — the resolver raises `Invalid URL format`, but `archive_url`
accepts it and proceeds (here returning the recent snapshot): the two
components do NOT validate identically, because `archive_url` never checks
the parsed host. -/
theorem archive_validates_like_resolve_counterexample :
    archiveUrl envRecentHit "20250101000000" "https://" =
      .ok (some "https://web.archive.org/web/1/x") ∧
    resolveUrl envHead405 20 "https://" = .error "Invalid URL format" ∧
    netlocOf (normalizeUrl "https://") = "" :=
  ⟨rfl, rfl, rfl⟩

/-- C6 amended: `archive_url` normalizes exactly as the resolver does
(the shared `normalizeUrl`: strip, prepend `https://` when no `http(s)://`
prefix) and fails with `Invalid URL provided` on empty input, but performs
no host validation: any non-empty input — even one whose normalized form
has an empty host — proceeds to the archive service. -/
theorem archive_validation_normalizes_no_host_check (env : ArchiveEnv)
    (now url a : String) (h0 : url ≠ "")
    (hrec : env.recentArchive (normalizeUrl url) = some a) :
    archiveUrl env now url = .ok (some a) ∧
    archiveUrl env now "" = .error "Invalid URL provided" := by
  constructor
  · simp only [archiveUrl, if_neg h0, hrec]
  · rfl

/-- C6 witness: the amended theorem at `envRecentHit` on the host-less
input `https://`. -/
theorem archive_validation_normalizes_no_host_check_witness :
    archiveUrl envRecentHit "20250101000000" "https://" =
      .ok (some "https://web.archive.org/web/1/x") ∧
    archiveUrl envRecentHit "20250101000000" "" =
      .error "Invalid URL provided" :=
  archive_validation_normalizes_no_host_check envRecentHit "20250101000000"
    "https://" "https://web.archive.org/web/1/x" (by decide) rfl

/-- A per-item run whose resolution raises on every attempt: the row is
the `Error` row carrying the failure's message — independent of the
archiver, which is never consulted — and resolution was attempted exactly
`maxRetries + 1` times. -/
theorem appProcessItem_const_error (resolver : Nat → Except String ResolvedPair)
    (archiver : Nat → Except String (Option String)) (maxRetries : Nat)
    (u msg : String) (h : ∀ k, resolver k = .error msg) :
    appProcessItem resolver archiver maxRetries u =
      ({ initRow u with status := "Error", errorMessage := msg },
        maxRetries + 1) := by
  simp only [appProcessItem, retryCall_const_error resolver msg maxRetries h]

/-- A per-item run whose resolution succeeds (truthily) on the first
attempt: status `Success`, no error message, one attempt. -/
theorem appProcessItem_ok0 (resolver : Nat → Except String ResolvedPair)
    (archiver : Nat → Except String (Option String)) (maxRetries : Nat)
    (u : String) (rp : ResolvedPair) (h : resolver 0 = .ok rp)
    (ht : pyTruthy rp.finalUrl = true) :
    (appProcessItem resolver archiver maxRetries u).1.status = "Success" ∧
    (appProcessItem resolver archiver maxRetries u).1.errorMessage = "" ∧
    (appProcessItem resolver archiver maxRetries u).2 = 1 := by
  simp only [appProcessItem, retryCall_ok0 resolver rp maxRetries h, ht, if_true]
  exact ⟨trivial, trivial, trivial⟩

/-- C7: a 3-item batch with `maxRetries = 2` whose middle item's resolution
raises on every attempt: the middle item consumes exactly 3 resolution
attempts (`maxRetries + 1`) and is recorded as `Error` with the failure's
message, its archival is skipped (its row is the same for every archiver),
and items 1 and 3 are still processed to `Success` — the failing item does
not abort the batch. -/
theorem batch_isolates_failing_item
    (resolver : Nat → Nat → Except String ResolvedPair)
    (archiver : Nat → Nat → Except String (Option String))
    (u1 u2 u3 : String) (rp1 rp3 : ResolvedPair) (msg : String)
    (h1 : resolver 0 0 = .ok rp1) (ht1 : pyTruthy rp1.finalUrl = true)
    (h2 : ∀ k, resolver 1 k = .error msg)
    (h3 : resolver 2 0 = .ok rp3) (ht3 : pyTruthy rp3.finalUrl = true) :
    (appProcessUrls resolver archiver 2 [u1, u2, u3]).map
        (fun p => (p.1.status, p.1.errorMessage, p.2)) =
      [("Success", "", 1), ("Error", msg, 3), ("Success", "", 1)] ∧
    ∀ archiver2 : Nat → Except String (Option String),
      appProcessItem (resolver 1) archiver2 2 u2 =
        appProcessItem (resolver 1) (archiver 1) 2 u2 := by
  have e1 := appProcessItem_ok0 (resolver 0) (archiver 0) 2 u1 rp1 h1 ht1
  have e3 := appProcessItem_ok0 (resolver 2) (archiver 2) 2 u3 rp3 h3 ht3
  have e2 := appProcessItem_const_error (resolver 1) (archiver 1) 2 u2 msg h2
  constructor
  · have hexp : appProcessUrls resolver archiver 2 [u1, u2, u3] =
        [appProcessItem (resolver 0) (archiver 0) 2 u1,
          appProcessItem (resolver 1) (archiver 1) 2 u2,
          appProcessItem (resolver 2) (archiver 2) 2 u3] := rfl
    rw [hexp]
    simp only [List.map_cons, List.map_nil, e1.1, e1.2.1, e1.2.2, e2,
      e3.1, e3.2.1, e3.2.2]
  · intro archiver2
    rw [e2, appProcessItem_const_error (resolver 1) archiver2 2 u2 msg h2]

/-- C7 witness: the batch theorem at `stubResolver3` (items 0 and 2
resolve at once, item 1 raises `boom` on every attempt). -/
theorem batch_isolates_failing_item_witness :
    (appProcessUrls stubResolver3 stubArchiverOk 2 ["a", "b", "c"]).map
        (fun p => (p.1.status, p.1.errorMessage, p.2)) =
      [("Success", "", 1), ("Error", "boom", 3), ("Success", "", 1)] ∧
    ∀ archiver2 : Nat → Except String (Option String),
      appProcessItem (stubResolver3 1) archiver2 2 "b" =
        appProcessItem (stubResolver3 1) (stubArchiverOk 1) 2 "b" :=
  batch_isolates_failing_item stubResolver3 stubArchiverOk "a" "b" "c"
    ⟨some "https://final.example/", ["https://final.example/"]⟩
    ⟨some "https://final.example/", ["https://final.example/"]⟩ "boom"
    rfl (by decide) (fun _ => rfl) rfl (by decide)

/-- C8: whenever resolution succeeds (a truthy final URL), the recorded
status is `Success` for EVERY archiver behavior; in particular when
archival raises on every attempt — including the final one — the archive
column degrades to the `Failed to archive` placeholder while the status
stays `Success`. -/
theorem archival_failure_never_downgrades_success
    (resolver : Nat → Except String ResolvedPair)
    (archiver archiverFail : Nat → Except String (Option String))
    (maxRetries : Nat) (u : String) (rp : ResolvedPair) (n : Nat) (e : String)
    (hres : retryCall resolver maxRetries = (.ok rp, n))
    (ht : pyTruthy rp.finalUrl = true)
    (hfail : ∀ k, archiverFail k = .error e) :
    (appProcessItem resolver archiver maxRetries u).1.status = "Success" ∧
    (appProcessItem resolver archiverFail maxRetries u).1.status = "Success" ∧
    (appProcessItem resolver archiverFail maxRetries u).1.waybackUrl =
      "Failed to archive" := by
  have hway : appArchiveWithRetries archiverFail maxRetries = none := by
    rw [appArchiveWithRetries,
      appArchiveRetryAux_const_error archiverFail e hfail maxRetries 0]
  refine ⟨?_, ?_, ?_⟩ <;>
    · simp only [appProcessItem, hres, ht, if_true, hway]
      try rfl

/-- C8 witness: the theorem at `stubResolveOk` (first-attempt resolution)
with `stubArchiverDown` raising `down` on every attempt. -/
theorem archival_failure_never_downgrades_success_witness :
    (appProcessItem stubResolveOk (stubArchiverOk 0) 2 "u").1.status =
      "Success" ∧
    (appProcessItem stubResolveOk stubArchiverDown 2 "u").1.status =
      "Success" ∧
    (appProcessItem stubResolveOk stubArchiverDown 2 "u").1.waybackUrl =
      "Failed to archive" :=
  archival_failure_never_downgrades_success stubResolveOk (stubArchiverOk 0)
    stubArchiverDown 2 "u"
    ⟨some "https://final.example/", ["https://final.example/"]⟩ 1 "down"
    rfl (by decide) (fun _ => rfl)

/-- C3: whenever `resolve_url` returns without raising, the chain is
non-empty, starts at the normalized input (stripped, `https://` prepended
when no `http(s)://` prefix was present), every adjacent pair of entries
is a hop to a redirect response's `Location` target, and the returned
final URL is the chain's last entry. -/
theorem resolve_chain_invariants (env : ResolveEnv) (n : Nat)
    (url final : String) (chain : List String)
    (h : resolveUrl env n url = .ok (final, chain)) :
    chain ≠ [] ∧ chain.head? = some (normalizeUrl url) ∧
    chain.getLast? = some final ∧ List.Chain' (chainStep env) chain := by
  simp only [resolveUrl] at h
  by_cases h0 : url = ""
  · rw [if_pos h0] at h; exact absurd h (by simp)
  rw [if_neg h0] at h
  by_cases hnet : netlocOf (normalizeUrl url) = ""
  · rw [if_pos hnet] at h; exact absurd h (by simp)
  rw [if_neg hnet] at h
  rw [Except.ok.injEq, Prod.mk.injEq] at h
  obtain ⟨hf, hc⟩ := h
  have inv := resolveLoop_inv env n (normalizeUrl url) [normalizeUrl url] []
    (by simp) rfl (List.chain'_singleton _)
  rw [hc, hf] at inv
  exact ⟨inv.1, inv.2.1, inv.2.2.1, inv.2.2.2⟩

/-- C3 witness: the invariants at `envHead405` on the schemeless input
`example.com`, which normalizes to `https://example.com`, answers 200 and
resolves to the singleton chain. -/
theorem resolve_chain_invariants_witness :
    (["https://example.com"] : List String) ≠ [] ∧
    (["https://example.com"] : List String).head? =
      some (normalizeUrl "example.com") ∧
    (["https://example.com"] : List String).getLast? =
      some "https://example.com" ∧
    List.Chain' (chainStep envHead405) ["https://example.com"] :=
  resolve_chain_invariants envHead405 20 "example.com" "https://example.com"
    ["https://example.com"] rfl

/-! ## Lemmas about the Vercel deadline loop -/

/-- Full characterization of the deadline-checked loop from position `i`
with `elapsed` seconds spent: there is a trip point `k` such that the
first `k` remaining items are processed normally (in order, with their
positions), every item from `k` on is marked `Skipped` in one pass, the
deadline check held (projected time within budget) at every processed item
and failed at `k` when anything was skipped; the loop gives every
remaining item a row and advances the processed counter past all of them. -/
theorem idxLoop_spec (resolver : Nat → Nat → Except String ResolvedPair)
    (archiver : Nat → Nat → Except String (Option String))
    (cost : Nat → ℚ) (maxRetries total : Nat) :
    ∀ (rem : List String) (i : Nat) (elapsed : ℚ),
      (idxLoop resolver archiver cost maxRetries total rem i elapsed).1.length =
        rem.length ∧
      (idxLoop resolver archiver cost maxRetries total rem i elapsed).2 =
        i + rem.length ∧
      ∃ k ≤ rem.length,
        (idxLoop resolver archiver cost maxRetries total rem i elapsed).1 =
          ((List.enumFrom i rem).take k).map
            (fun p => idxProcessItem (resolver p.1) (archiver p.1) maxRetries
              (pyStrip p.2)) ++
          (rem.drop k).map skipRow ∧
        (k < rem.length →
          elapsed + costSum cost i k +
            ((total : ℚ) - ((i + k : Nat) : ℚ)) * estimatedTimePerUrl > 9) ∧
        (∀ j < k, elapsed + costSum cost i j +
            ((total : ℚ) - ((i + j : Nat) : ℚ)) * estimatedTimePerUrl ≤ 9) := by
  intro rem
  induction rem with
  | nil =>
    intro i elapsed
    refine ⟨rfl, rfl, 0, le_refl 0, rfl, ?_, ?_⟩
    · intro h; simp at h
    · intro j hj; exact absurd hj (by omega)
  | cons u rest ih =>
    intro i elapsed
    by_cases hc : elapsed + ((total : ℚ) - (i : ℚ)) * estimatedTimePerUrl > 9
    · rw [show idxLoop resolver archiver cost maxRetries total (u :: rest) i
          elapsed = ((u :: rest).map skipRow, i + (u :: rest).length) by
        simp only [idxLoop, if_pos hc]]
      refine ⟨by simp, rfl, 0, by omega, by simp, ?_, ?_⟩
      · intro _
        have : ((i + 0 : Nat) : ℚ) = (i : ℚ) := by push_cast; ring
        rw [this]
        simpa [costSum] using hc
      · intro j hj; exact absurd hj (by omega)
    · rw [show idxLoop resolver archiver cost maxRetries total (u :: rest) i
          elapsed =
          (idxProcessItem (resolver i) (archiver i) maxRetries (pyStrip u) ::
            (idxLoop resolver archiver cost maxRetries total rest (i + 1)
              (elapsed + cost i)).1,
            (idxLoop resolver archiver cost maxRetries total rest (i + 1)
              (elapsed + cost i)).2) by
        simp only [idxLoop, if_neg hc]]
      obtain ⟨hlen, hcount, k', hk'le, hrows, htrip, hpre⟩ :=
        ih (i + 1) (elapsed + cost i)
      refine ⟨by simp [hlen], by rw [hcount]; simp; omega, k' + 1, by simp; omega,
        ?_, ?_, ?_⟩
      · rw [show List.enumFrom i (u :: rest) =
            (i, u) :: List.enumFrom (i + 1) rest from rfl]
        rw [show ((i, u) :: List.enumFrom (i + 1) rest).take (k' + 1) =
            (i, u) :: (List.enumFrom (i + 1) rest).take k' from rfl]
        rw [List.map_cons, hrows]
        rfl
      · intro hk
        have h1 := htrip (by simpa using Nat.lt_of_succ_lt_succ (by simpa using hk))
        have harith : ((i + (k' + 1) : Nat) : ℚ) = (((i + 1) + k' : Nat) : ℚ) := by
          push_cast; ring
        rw [harith, show costSum cost i (k' + 1) =
          cost i + costSum cost (i + 1) k' from rfl]
        linarith
      · intro j hj
        cases j with
        | zero =>
          have h9 : elapsed + ((total : ℚ) - (i : ℚ)) * estimatedTimePerUrl ≤ 9 :=
            le_of_not_lt hc
          have : ((i + 0 : Nat) : ℚ) = (i : ℚ) := by push_cast; ring
          rw [this, show costSum cost i 0 = 0 from rfl]
          linarith
        | succ j' =>
          have h1 := hpre j' (by omega)
          have harith : ((i + (j' + 1) : Nat) : ℚ) = (((i + 1) + j' : Nat) : ℚ) := by
            push_cast; ring
          rw [harith, show costSum cost i (j' + 1) =
            cost i + costSum cost (i + 1) j' from rfl]
          linarith

/-- C9: the deadline-constrained batch over its (truncated) URL list: every
item receives a row and the processed counter ends at the batch total; a
trip point `k` exists with the first `k` items processed normally (their
already-recorded results preserved unchanged), every later item marked
`Skipped` with the explanatory message in one pass and never processed,
the deadline check within budget at each processed item, and over budget
at `k` whenever anything was skipped. -/
theorem deadline_skips_remaining_items
    (resolver : Nat → Nat → Except String ResolvedPair)
    (archiver : Nat → Nat → Except String (Option String))
    (cost : Nat → ℚ) (maxRetries : Nat) (urls : List String) :
    (idxLoop resolver archiver cost maxRetries urls.length urls 0 0).1.length =
      urls.length ∧
    (idxLoop resolver archiver cost maxRetries urls.length urls 0 0).2 =
      urls.length ∧
    ∃ k ≤ urls.length,
      (idxLoop resolver archiver cost maxRetries urls.length urls 0 0).1 =
        (urls.enum.take k).map
          (fun p => idxProcessItem (resolver p.1) (archiver p.1) maxRetries
            (pyStrip p.2)) ++
        (urls.drop k).map skipRow ∧
      (k < urls.length →
        costSum cost 0 k + ((urls.length : ℚ) - (k : ℚ)) * estimatedTimePerUrl
          > 9) ∧
      (∀ j < k, costSum cost 0 j + ((urls.length : ℚ) - (j : ℚ)) *
          estimatedTimePerUrl ≤ 9) := by
  obtain ⟨hlen, hcount, k, hkle, hrows, htrip, hpre⟩ :=
    idxLoop_spec resolver archiver cost maxRetries urls.length urls 0 0
  refine ⟨hlen, by rw [hcount]; omega, k, hkle, ?_, ?_, ?_⟩
  · rw [hrows]; rfl
  · intro hk
    have := htrip hk
    simpa using this
  · intro j hj
    have := hpre j hj
    simpa using this

/-- The hard-coded safe cap: `int(8 / 0.5)` is 16, so
`max_safe_urls = min(max_urls, 16)`. -/
theorem maxSafeUrls_eq (maxUrls : Nat) : maxSafeUrls maxUrls = min maxUrls 16 := by
  have h : ((8 : ℚ) / estimatedTimePerUrl) = 16 := by
    rw [estimatedTimePerUrl]; norm_num
  have h2 : (Int.floor ((16 : ℚ))).toNat = 16 := by
    norm_num
    rfl
  rw [maxSafeUrls, h, h2]

/-- C10: before any processing, the batch is silently truncated to
`min(max_urls, 16)` items: the reported total is the minimum of the
configured limit, the fixed cap 16 and the batch size (hence at most 16),
every row receives an entry, and every row beyond the truncation stays
exactly as initialized — no `Skipped` mark, no status, no message, never
attempted — while being excluded from the reported total. -/
theorem batch_truncated_to_safe_cap
    (resolver : Nat → Nat → Except String ResolvedPair)
    (archiver : Nat → Nat → Except String (Option String))
    (cost : Nat → ℚ) (maxRetries maxUrls : Nat) (urls : List String) :
    (idxProcessUrls resolver archiver cost maxRetries maxUrls urls).2.1 =
      min (min maxUrls 16) urls.length ∧
    (idxProcessUrls resolver archiver cost maxRetries maxUrls urls).2.1 ≤ 16 ∧
    (idxProcessUrls resolver archiver cost maxRetries maxUrls urls).1.length =
      urls.length ∧
    (idxProcessUrls resolver archiver cost maxRetries maxUrls urls).1.drop
        ((idxProcessUrls resolver archiver cost maxRetries maxUrls urls).2.1) =
      (urls.drop
        ((idxProcessUrls resolver archiver cost maxRetries maxUrls urls).2.1)).map
        initRow := by
  have hdrop : ∀ {α : Type} (l1 l2 : List α) (n : Nat), l1.length = n →
      (l1 ++ l2).drop n = l2 := by
    intro α l1 l2 n h
    rw [← h]
    exact List.drop_left l1 l2
  simp only [idxProcessUrls, maxSafeUrls_eq]
  have hlen : ((urls.take maxUrls).take (min maxUrls 16)).length =
      min (min maxUrls 16) urls.length := by
    simp only [List.length_take]; omega
  have hloop := (idxLoop_spec resolver archiver cost maxRetries
    ((urls.take maxUrls).take (min maxUrls 16)).length
    ((urls.take maxUrls).take (min maxUrls 16)) 0 0).1
  refine ⟨hlen, by rw [hlen]; omega, ?_, ?_⟩
  · rw [List.length_append, hloop, List.length_map, List.length_drop]
    have := hlen
    omega
  · exact hdrop _ _ _ hloop

/-- C5 witness: the hop-budget theorem applied to `envFresh`, whose every
answer is a 301 to a URL one character longer, starting at
`https://h/`. -/
theorem resolve_exhausts_hop_budget_witness :
    resolveUrl envFresh 20 (freshUrl 0) =
      .ok (freshUrl 20, (List.range 21).map freshUrl) :=
  resolve_exhausts_hop_budget envFresh freshUrl (by decide) (by decide)
    (by decide) (by decide) (by decide)

/-- C4 witness: the cycle theorem applied to `envCycle` at
`https://a.example/`. -/
theorem resolve_cycle_terminates_witness :
    resolveUrl envCycle 20 "https://a.example/" =
      .ok ("https://b.example/", ["https://a.example/", "https://b.example/"]) :=
  resolve_cycle_terminates envCycle "https://a.example/" "https://b.example/" 20
    (by decide) (by decide) (by decide) (by decide) (by decide) (by decide)
    (by decide) (by decide) (by decide) (by decide) (by decide) (by decide)
    (by decide) (by decide)

